import Mathlib

/-!
Verification of the soundboard repository's capture state machine,
panel controller and playback dispatcher, shallowly embedded from the
Rust sources (`src/bin/pipewire_source.rs`, `src/main.rs`,
`src/audio_player.rs`).  Samples are abstracted by a type parameter `S`
because the command handlers never inspect sample values.
-/

namespace Soundboard

/-- Audio format, embedding the fields of `spa AudioInfoRaw` that the
program reads: `rate()` and `channels()`. -/
structure AudioFormat where
  rate : Nat
  channels : Nat
deriving DecidableEq, Repr

/-- File paths, embedded as strings (Rust `PathBuf`). -/
abbrev FilePath := String

/-- `State` from `pipewire_source.rs` lines 18-22: the capture engine is
either listening or recording to a single destination path. -/
inductive State where
  | Listening
  | Recording (path : FilePath)
deriving DecidableEq, Repr

/-- `UserData` from `pipewire_source.rs` lines 24-28: negotiated format,
capture state and the accumulated sample buffer. -/
structure UserData (S : Type) where
  format : Option AudioFormat
  state : State
  buffer : List S
deriving DecidableEq

/-- `AudioCommand` from `lib.rs` lines 16-21. -/
inductive AudioCommand where
  | Start (path : FilePath)
  | Stop
  | Status
deriving DecidableEq

/-- `AudioResponse` from `lib.rs` lines 23-28. -/
inductive AudioResponse where
  | Status (msg : String)
  | Ok
  | Error (msg : String)
deriving DecidableEq

/-- The triple handed to the Recording Writer on a successful Stop
(`save_data` in `pipewire_source.rs` lines 106-110). -/
structure SaveData (S : Type) where
  buffer : List S
  format : AudioFormat
  path : FilePath
deriving DecidableEq

/-- The textual status produced by `format!("\x7b:?\x7d", user_data.state)`
in `pipewire_source.rs` line 152 (Rust `Debug` formatting of `State`). -/
def State.statusMsg : State → String
  | .Listening => "Listening"
  | .Recording p => "Recording(\"" ++ p ++ "\")"

/-- Command handling from `start_ipc_listener`, `pipewire_source.rs`
lines 112-156: the body of the scoped-mutex block.  The result is
`none` exactly when the Rust code would panic — the
`user_data.format.as_ref().unwrap()` on line 143, reached only with
state `Recording` and no format.  Otherwise it returns the updated
`UserData`, the `AudioResponse`, and the data handed to the writer. -/
def handle {S : Type} (d : UserData S) :
    AudioCommand → Option (UserData S × AudioResponse × Option (SaveData S))
  | .Start path =>
      match d.format with
      | none => some (d, .Error "Format not known", none)
      | some _ =>
          match d.state with
          | .Listening =>
              some (⟨d.format, .Recording path, []⟩, .Ok, none)
          | .Recording _ =>
              some (d, .Error "Already recording", none)
  | .Stop =>
      match d.state with
      | .Recording p =>
          match d.format with
          | some f => some (⟨d.format, .Listening, []⟩, .Ok, some ⟨d.buffer, f, p⟩)
          | none => none
      | .Listening => some (d, .Error "Not recording", none)
  | .Status => some (d, .Status d.state.statusMsg, none)

/-- Events that mutate the engine's shared `UserData`: a command from
the IPC listener, a format negotiation (`param_changed` callback,
`pipewire_source.rs` lines 201-225, which stores `Some info`), or a
chunk delivered by the real-time `process` callback (lines 226-259,
which discards when no format is known or state is `Listening`, and
appends to the buffer when `Recording`). -/
inductive EngineEvent (S : Type) where
  | Cmd (c : AudioCommand)
  | FormatNegotiated (f : AudioFormat)
  | Samples (chunk : List S)

/-- One transition of the engine's shared state under an event. -/
def engineStep {S : Type} (d : UserData S) : EngineEvent S → Option (UserData S)
  | .Cmd c => (handle d c).map (fun r => r.1)
  | .FormatNegotiated f => some ⟨some f, d.state, d.buffer⟩
  | .Samples chunk =>
      match d.format with
      | none => some d
      | some _ =>
          match d.state with
          | .Listening => some d
          | .Recording _ => some ⟨d.format, d.state, d.buffer ++ chunk⟩

/-- The engine's initial state (`pipewire_source.rs` lines 187-191):
no format, `Listening`, empty buffer. -/
def initData (S : Type) : UserData S := ⟨none, .Listening, []⟩

/-- States of the engine reachable from the initial state under any
sequence of commands, format negotiations and sample deliveries. -/
inductive Reachable {S : Type} : UserData S → Prop where
  | init : Reachable (initData S)
  | step {d d' : UserData S} {e : EngineEvent S} :
      Reachable d → engineStep d e = some d' → Reachable d'

/-- WAV header data chosen by `save_recording_from_buffer`
(`pipewire_source.rs` lines 46-51): 32-bit float, channel count and
rate from the negotiated format. -/
structure WavSpec where
  channels : Nat
  sampleRate : Nat
  bitsPerSample : Nat
  floatFormat : Bool
deriving DecidableEq

/-- A written WAV file: destination, header, sample sequence. -/
structure WavFile (S : Type) where
  path : FilePath
  spec : WavSpec
  samples : List S
deriving DecidableEq

/-- Recording Writer, from `save_recording_from_buffer`
(`pipewire_source.rs` lines 30-76): an empty buffer short-circuits and
creates no file (`none`); otherwise (on the successful I/O path) a WAV
file with the negotiated channels and rate is created at `filename`. -/
def save_recording_from_buffer {S : Type} (buffer : List S)
    (format : AudioFormat) (filename : FilePath) : Option (WavFile S) :=
  if buffer.isEmpty then none
  else some ⟨filename, ⟨format.channels, format.rate, 32, true⟩, buffer⟩

/-- Substring containment on character lists (structural form of Rust
`str::contains` with a literal pattern, used on line 424 of `main.rs`). -/
def hasSubList (pat : List Char) : List Char → Bool
  | [] => pat.isEmpty
  | c :: t => pat.isPrefixOf (c :: t) || hasSubList pat t

/-- Rust `status.contains("Listening")` (`main.rs` line 424). -/
def strContains (s pat : String) : Bool :=
  hasSubList pat.data s.data

/-- `Mode` from `main.rs` lines 24-28. -/
inductive Mode where
  | Playback
  | Edit
deriving DecidableEq, Repr

/-- The button images the panel loop displays: `img_rec_off`,
`img_rec_on` (also used as the "pressed" state) and `img_play`
(`main.rs` lines 288-293). -/
inductive ButtonImage where
  | RecOff
  | RecOn
  | Play
deriving DecidableEq, Repr

/-- `DELETE_HOLD_DURATION` (`main.rs` line 22), in milliseconds. -/
def DELETE_HOLD_DURATION : Nat := 2000

/-- Pointwise update of a map over keys. -/
def updateFn {β : Type} (f : Nat → β) (k : Nat) (v : β) : Nat → β :=
  fun n => if n = k then v else f n

/-- The mutable state of the panel event loop in `main` (`main.rs`
lines 314-336): interaction mode, current playback sink name
(`None` = default output), the fixed key→file binding, the key being
recorded if any, the pending-delete press timestamps (`Instant`s,
modelled as milliseconds), and the image currently shown on each key. -/
structure PanelState where
  mode : Mode
  playback_sink_name : Option String
  button_files : Nat → Option FilePath
  active_recording_key : Option Nat
  pending_delete : Nat → Option Nat
  images : Nat → ButtonImage

/-- The panel process composed with the capture engine it talks to over
the socket, plus the filesystem view (`path.exists()` / file creation /
deletion) that both consult. -/
structure Sys (S : Type) where
  panel : PanelState
  engine : UserData S
  files : FilePath → Bool

/-- Effect of the Recording Writer on the filesystem: a successful
Stop's `save_data` creates the destination file when the buffer is
nonempty, otherwise no file appears. -/
def applySave {S : Type} (files : FilePath → Bool) : Option (SaveData S) → (FilePath → Bool)
  | none => files
  | some sd =>
      match save_recording_from_buffer sd.buffer sd.format sd.path with
      | none => files
      | some wf => fun p => if p = wf.path then true else files p

/-- `EncoderTwist(0, _)` handling (`main.rs` lines 345-362): toggles the
mode and re-renders the LCD; nothing else in the panel state changes. -/
def encoderTwist0 {S : Type} (sys : Sys S) : Sys S :=
  { sys with panel := { sys.panel with
      mode := match sys.panel.mode with
        | .Playback => .Edit
        | .Edit => .Playback } }

/-- `EncoderDown(0)` handling (`main.rs` lines 363-381): the sink name
toggles between `None` (default output) and `Some "MyMixer"`. -/
def encoderDown0 (s : Option String) : Option String :=
  match s with
  | some _ => none
  | none => some "MyMixer"

/-- `ButtonDown(key)` handling (`main.rs` lines 382-481).  In Playback
mode a bound, existing file just gets the "pressed" image.  In Edit
mode an existing file registers a pending-delete timestamp `now`; an
absent file triggers a `Status` round trip and, if the engine reports
`Listening`, a `Start(path)`; on `Ok` the key becomes the active
recording key.  `none` propagates an engine panic (never reachable). -/
def buttonDown {S : Type} (sys : Sys S) (key : Nat) (now : Nat) : Option (Sys S) :=
  match sys.panel.mode with
  | .Playback =>
      match sys.panel.button_files key with
      | some path =>
          if sys.files path then
            some { sys with panel :=
              { sys.panel with images := updateFn sys.panel.images key .RecOn } }
          else some sys
      | none => some sys
  | .Edit =>
      match sys.panel.button_files key with
      | none => some sys
      | some path =>
          if sys.files path then
            some { sys with panel := { sys.panel with
              pending_delete := updateFn sys.panel.pending_delete key (some now),
              images := updateFn sys.panel.images key .RecOn } }
          else
            match handle sys.engine .Status with
            | none => none
            | some (eng1, resp, _) =>
                match resp with
                | .Status st =>
                    if strContains st "Listening" then
                      match handle eng1 (.Start path) with
                      | none => none
                      | some (eng2, .Ok, _) =>
                          some { sys with engine := eng2, panel := { sys.panel with
                            active_recording_key := some key,
                            images := updateFn sys.panel.images key .RecOn } }
                      | some (eng2, _, _) => some { sys with engine := eng2 }
                    else some sys
                | _ => some sys

/-- A playback dispatch spawned by the event loop: the file played and
the sink name captured at dispatch time (`main.rs` lines 498-513). -/
structure PlayRequest where
  path : FilePath
  sink : Option String
deriving DecidableEq

/-- `ButtonUp(key)` handling (`main.rs` lines 482-616).  In Playback
mode a bound, existing file is dispatched for playback and the key
image returns to "play".  In Edit mode: if the key is the active
recording key a `Stop` is sent (on `Ok` the active key is cleared and
the written file appears on disk); otherwise a registered
pending-delete timestamp is consumed, and the bound file is removed
from disk only when the press was held at least `DELETE_HOLD_DURATION`
(image "rec off" on success, "play" when the removal fails); a shorter
hold restores the "play" image and touches nothing on disk. -/
def buttonUp {S : Type} (sys : Sys S) (key : Nat) (now : Nat) :
    Option (Sys S × Option PlayRequest) :=
  match sys.panel.mode with
  | .Playback =>
      match sys.panel.button_files key with
      | some path =>
          if sys.files path then
            some ({ sys with panel :=
                { sys.panel with images := updateFn sys.panel.images key .Play } },
              some ⟨path, sys.panel.playback_sink_name⟩)
          else some (sys, none)
      | none => some (sys, none)
  | .Edit =>
      if sys.panel.active_recording_key = some key then
        match handle sys.engine .Stop with
        | none => none
        | some (eng1, resp, sd) =>
            let files1 := applySave sys.files sd
            match resp with
            | .Ok =>
                let pan1 := { sys.panel with
                              active_recording_key := none,
                              images := updateFn sys.panel.images key .Play }
                some (⟨pan1, eng1, files1⟩, none)
            | _ => some (⟨sys.panel, eng1, files1⟩, none)
      else
        match sys.panel.pending_delete key with
        | some t0 =>
            let p1 := { sys.panel with
              pending_delete := updateFn sys.panel.pending_delete key none }
            if DELETE_HOLD_DURATION ≤ now - t0 then
              match sys.panel.button_files key with
              | some path =>
                  if sys.files path then
                    some ({ sys with
                      files := fun q => if q = path then false else sys.files q,
                      panel := { p1 with images := updateFn p1.images key .RecOff } }, none)
                  else
                    some ({ sys with
                      panel := { p1 with images := updateFn p1.images key .Play } }, none)
              | none => some ({ sys with panel := p1 }, none)
            else
              match sys.panel.button_files key with
              | some path =>
                  if sys.files path then
                    some ({ sys with
                      panel := { p1 with images := updateFn p1.images key .Play } }, none)
                  else some ({ sys with panel := p1 }, none)
              | none => some ({ sys with panel := p1 }, none)
        | none => some (sys, none)

/-- `PlaybackSink` from `audio_player.rs` lines 7-12. -/
inductive PlaybackSink where
  | Default
  | Mixer
  | Both
deriving DecidableEq, Repr

/-- Argument list of the `pw-play` command built for the default sink
by `play_audio_file` (`audio_player.rs` lines 28-36): after
`cmd_default` is given `--volume volume path`, lines 35-36 append a
second `--volume volume` pair to `cmd_default` again. -/
def playerDefaultArgs (volume : String) (path : FilePath) : List String :=
  ["--volume", volume, path] ++ ["--volume", volume]

/-- Argument list of the `pw-play` command built for the mixer sink by
`play_audio_file` (`audio_player.rs` lines 34-41): only
`--target MyMixer path` is ever added to `cmd_mixer`. -/
def playerMixerArgs (path : FilePath) : List String :=
  ["--target", "MyMixer", path]

/-- The invocations `play_audio_file` issues per requested sink
(`audio_player.rs` lines 43-91): one for `Default`, one for `Mixer`,
and both (concurrently spawned) for `Both`. -/
def invocationsFor (sink : PlaybackSink) (volume : String) (path : FilePath) :
    List (List String) :=
  match sink with
  | .Default => [playerDefaultArgs volume path]
  | .Mixer => [playerMixerArgs path]
  | .Both => [playerDefaultArgs volume path, playerMixerArgs path]

/-- Outcome of one spawned `pw-play` invocation: an exit status, or a
failure to launch / obtain the status. -/
inductive CmdResult where
  | exited (success : Bool)
  | launchFailure
deriving DecidableEq, Repr

/-- Result aggregation of the `Both` branch (`audio_player.rs` lines
62-90): overall success exactly when both statuses were obtained and
both are successful. -/
def bothOutcome : CmdResult → CmdResult → Bool
  | .exited true, .exited true => true
  | _, _ => false

/-- A sample negotiated format: 48000 Hz stereo. -/
def fmt0 : AudioFormat := ⟨48000, 2⟩

/-- A sample destination path. -/
def pathA : FilePath := "/rec/a.wav"

/-- Engine with a negotiated format, listening, empty buffer. -/
def dReady : UserData Int := ⟨some fmt0, .Listening, []⟩

/-- Engine recording to `pathA` with three samples buffered. -/
def dRec : UserData Int := ⟨some fmt0, .Recording pathA, [1, 2, 3]⟩

/-- A panel in Playback mode: key 0 bound to `pathA`, default sink, no
active recording, no pending deletes, all keys showing "rec off". -/
def panelP : PanelState :=
  ⟨.Playback, none, fun k => if k = 0 then some pathA else none,
   none, fun _ => none, fun _ => .RecOff⟩

/-- Playback-mode system whose bound file for key 0 is absent on disk
and whose engine is ready to record. -/
def sysP : Sys Int := ⟨panelP, dReady, fun _ => false⟩

/-- Edit-mode system whose bound file for key 0 is absent on disk and
whose engine is ready to record. -/
def sysE : Sys Int := ⟨{ panelP with mode := .Edit }, dReady, fun _ => false⟩

/-- Edit-mode system whose bound file for key 0 exists on disk. -/
def sysF : Sys Int := ⟨{ panelP with mode := .Edit }, dReady, fun p => p == pathA⟩

/-- Edit-mode system recording to `pathA` on key 0. -/
def sysR : Sys Int :=
  ⟨{ panelP with mode := .Edit, active_recording_key := some 0 }, dRec, fun _ => false⟩

/-- Edit-mode system with a pending-delete timestamp 0 registered for
key 0 and the bound file present on disk. -/
def sysD : Sys Int :=
  ⟨{ panelP with mode := .Edit, pending_delete := fun k => if k = 0 then some 0 else none },
   dReady, fun p => p == pathA⟩

/-- C2: handling `Start(path)` returns `Error("Format not known")` when
no format is negotiated; returns `Error("Already recording")` when the
state is `Recording` with a known format; and otherwise (state
`Listening`, format known) clears the buffer, transitions to
`Recording(path)` and returns `Ok` — the refusals leave the state
untouched. -/
theorem start_command_cases {S : Type} (d : UserData S) (p : FilePath) :
    (d.format = none →
      handle d (.Start p) = some (d, .Error "Format not known", none)) ∧
    (∀ f q, d.format = some f → d.state = State.Recording q →
      handle d (.Start p) = some (d, .Error "Already recording", none)) ∧
    (∀ f, d.format = some f → d.state = State.Listening →
      handle d (.Start p) = some (⟨some f, .Recording p, []⟩, .Ok, none)) := by
  obtain ⟨fmt, st, buf⟩ := d
  refine ⟨?_, ?_, ?_⟩
  · intro h
    subst h
    rfl
  · intro f q hf hs
    subst hf
    subst hs
    rfl
  · intro f hf hs
    subst hf
    subst hs
    rfl

/-- Witness for `start_command_cases`: at the concrete ready engine
`dReady`, a `Start` is accepted and transitions to `Recording`. -/
theorem start_command_cases_witness :
    handle dReady (.Start pathA)
      = some (⟨some fmt0, .Recording pathA, []⟩, .Ok, none) :=
  (start_command_cases dReady pathA).2.2 fmt0 rfl rfl

/-- C3: handling `Stop` returns `Error("Not recording")` when the state
is `Listening`, leaving state and buffer unchanged; when the state is
`Recording(path)` with negotiated format `f`, it empties the buffer,
transitions to `Listening`, hands the taken buffer with `f` and the
path to the writer, and returns `Ok`. -/
theorem stop_command_cases {S : Type} (d : UserData S) :
    (d.state = State.Listening →
      handle d .Stop = some (d, .Error "Not recording", none)) ∧
    (∀ p f, d.state = State.Recording p → d.format = some f →
      handle d .Stop
        = some (⟨some f, .Listening, []⟩, .Ok, some ⟨d.buffer, f, p⟩)) := by
  obtain ⟨fmt, st, buf⟩ := d
  refine ⟨?_, ?_⟩
  · intro hs
    subst hs
    rfl
  · intro p f hs hf
    subst hs
    subst hf
    rfl

/-- Witness for `stop_command_cases`: stopping the concrete recording
engine `dRec` hands its buffer, format and path to the writer. -/
theorem stop_command_cases_witness :
    handle dRec .Stop
      = some (⟨some fmt0, .Listening, []⟩, .Ok, some ⟨[1, 2, 3], fmt0, pathA⟩) :=
  (stop_command_cases dRec).2 pathA fmt0 rfl rfl

/-- C4: an accepted `Start` followed immediately by `Stop`, with no
sample chunks delivered in between, hands the writer an empty buffer,
and the writer short-circuits on an empty buffer without creating a
file. -/
theorem start_stop_no_samples {S : Type} (d : UserData S) (p : FilePath)
    (f : AudioFormat) (hf : d.format = some f) (hs : d.state = State.Listening) :
    ∃ d1, handle d (.Start p) = some (d1, .Ok, none) ∧
      handle d1 .Stop = some (⟨some f, .Listening, []⟩, .Ok, some ⟨[], f, p⟩) ∧
      save_recording_from_buffer ([] : List S) f p = none := by
  obtain ⟨fmt, st, buf⟩ := d
  subst hf
  subst hs
  exact ⟨⟨some f, .Recording p, []⟩, rfl, rfl, rfl⟩

/-- Witness for `start_stop_no_samples` at the concrete ready engine. -/
theorem start_stop_no_samples_witness :
    ∃ d1, handle dReady (.Start pathA) = some (d1, .Ok, none) ∧
      handle d1 .Stop = some (⟨some fmt0, .Listening, []⟩, .Ok, some ⟨[], fmt0, pathA⟩) ∧
      save_recording_from_buffer ([] : List Int) fmt0 pathA = none :=
  start_stop_no_samples dReady pathA fmt0 rfl rfl

/-- One step of the engine preserves the invariant that the format is
known whenever the state is not `Listening`. -/
theorem engineStep_inv {S : Type} {d d' : UserData S} {e : EngineEvent S}
    (hi : d.format = none → d.state = State.Listening)
    (h : engineStep d e = some d') :
    d'.format = none → d'.state = State.Listening := by
  obtain ⟨fmt, st, buf⟩ := d
  cases e with
  | Cmd c =>
      cases c with
      | Start p =>
          cases fmt with
          | none =>
              replace h := Option.some.inj h
              subst h
              exact hi
          | some f =>
              cases st with
              | Listening =>
                  replace h := Option.some.inj h
                  subst h
                  intro hc
                  cases hc
              | Recording q =>
                  replace h := Option.some.inj h
                  subst h
                  intro hc
                  cases hc
      | Stop =>
          cases st with
          | Listening =>
              replace h := Option.some.inj h
              subst h
              intro _
              rfl
          | Recording q =>
              cases fmt with
              | none => cases h
              | some f =>
                  replace h := Option.some.inj h
                  subst h
                  intro _
                  rfl
      | Status =>
          replace h := Option.some.inj h
          subst h
          exact hi
  | FormatNegotiated f =>
      replace h := Option.some.inj h
      subst h
      intro hc
      cases hc
  | Samples chunk =>
      cases fmt with
      | none =>
          replace h := Option.some.inj h
          subst h
          exact hi
      | some f =>
          cases st with
          | Listening =>
              replace h := Option.some.inj h
              subst h
              exact hi
          | Recording q =>
              replace h := Option.some.inj h
              subst h
              intro hc
              cases hc

/-- Every reachable engine state has a known format unless it is
`Listening`. -/
theorem reachable_inv {S : Type} {d : UserData S} (h : Reachable d) :
    d.format = none → d.state = State.Listening := by
  induction h with
  | init => intro _; rfl
  | step _ hstep ih => exact engineStep_inv ih hstep

/-- The concrete recording engine `dRec` is reachable: negotiate
`fmt0`, accept `Start pathA`, then deliver the chunk `[1, 2, 3]`. -/
theorem dRec_reachable : Reachable dRec :=
  Reachable.step (e := .Samples [1, 2, 3])
    (Reachable.step (e := .Cmd (.Start pathA))
      (Reachable.step (e := .FormatNegotiated fmt0) Reachable.init rfl) rfl) rfl

/-- C1: at every reachable engine state the capture state is either
`Listening` or `Recording` of exactly one destination path, and a
`Start` arriving while recording is refused with
`Error("Already recording")`, leaving the state unchanged — so the
engine never records to two destinations simultaneously. -/
theorem capture_single_destination {S : Type} (d : UserData S) (h : Reachable d) :
    (d.state = State.Listening ∨ ∃! p, d.state = State.Recording p) ∧
    (∀ p q, d.state = State.Recording p →
      handle d (.Start q) = some (d, .Error "Already recording", none)) := by
  constructor
  · cases hs : d.state with
    | Listening => exact Or.inl rfl
    | Recording p =>
        refine Or.inr ⟨p, rfl, ?_⟩
        intro y hy
        injection hy with h1
        exact h1.symm
  · intro p q hp
    have hf : ∃ f, d.format = some f := by
      cases hfmt : d.format with
      | some f => exact ⟨f, rfl⟩
      | none =>
          have hl := reachable_inv h hfmt
          rw [hp] at hl
          cases hl
    obtain ⟨f, hf⟩ := hf
    obtain ⟨fmt, st, buf⟩ := d
    cases hf
    cases hp
    rfl

/-- Witness for `capture_single_destination` at the reachable recording
state `dRec`. -/
theorem capture_single_destination_witness :
    (dRec.state = State.Listening ∨ ∃! p, dRec.state = State.Recording p) ∧
    (∀ p q, dRec.state = State.Recording p →
      handle dRec (.Start q) = some (dRec, .Error "Already recording", none)) :=
  capture_single_destination dRec dRec_reachable

/-- One step of the engine never discards a known format. -/
theorem engineStep_format_mono {S : Type} {d d' : UserData S} {e : EngineEvent S}
    (h : engineStep d e = some d') (hf : d.format.isSome) : d'.format.isSome := by
  obtain ⟨fmt, st, buf⟩ := d
  cases fmt with
  | none => cases hf
  | some f =>
      cases e with
      | Cmd c =>
          cases c with
          | Start p =>
              cases st with
              | Listening =>
                  replace h := Option.some.inj h
                  subst h
                  rfl
              | Recording q =>
                  replace h := Option.some.inj h
                  subst h
                  rfl
          | Stop =>
              cases st with
              | Listening =>
                  replace h := Option.some.inj h
                  subst h
                  rfl
              | Recording q =>
                  replace h := Option.some.inj h
                  subst h
                  rfl
          | Status =>
              replace h := Option.some.inj h
              subst h
              rfl
      | FormatNegotiated g =>
          replace h := Option.some.inj h
          subst h
          rfl
      | Samples chunk =>
          cases st with
          | Listening =>
              replace h := Option.some.inj h
              subst h
              rfl
          | Recording q =>
              replace h := Option.some.inj h
              subst h
              rfl

/-- C9: at every reachable engine state, `Recording` implies the format
is known, no engine step can clear a known format, and handling `Stop`
never hits the panicking `unwrap` of the format (the handler always
returns a response). -/
theorem stop_unwrap_unreachable {S : Type} (d : UserData S) (h : Reachable d) :
    (∀ p, d.state = State.Recording p → d.format.isSome) ∧
    (∀ (e : EngineEvent S) (d' : UserData S),
      engineStep d e = some d' → d.format.isSome → d'.format.isSome) ∧
    (handle d .Stop).isSome := by
  refine ⟨?_, ?_, ?_⟩
  · intro p hp
    cases hfmt : d.format with
    | some f => rfl
    | none =>
        have hl := reachable_inv h hfmt
        rw [hp] at hl
        cases hl
  · intro e d' hstep hf
    exact engineStep_format_mono hstep hf
  · cases hs : d.state with
    | Listening =>
        obtain ⟨fmt, st, buf⟩ := d
        cases hs
        rfl
    | Recording p =>
        have hf : ∃ f, d.format = some f := by
          cases hfmt : d.format with
          | some f => exact ⟨f, rfl⟩
          | none =>
              have hl := reachable_inv h hfmt
              rw [hs] at hl
              cases hl
        obtain ⟨f, hf⟩ := hf
        obtain ⟨fmt, st, buf⟩ := d
        cases hf
        cases hs
        rfl

/-- Witness for `stop_unwrap_unreachable` at the reachable recording
state `dRec`. -/
theorem stop_unwrap_unreachable_witness :
    (∀ p, dRec.state = State.Recording p → dRec.format.isSome) ∧
    (∀ (e : EngineEvent Int) (d' : UserData Int),
      engineStep dRec e = some d' → dRec.format.isSome → d'.format.isSome) ∧
    (handle dRec .Stop).isSome :=
  stop_unwrap_unreachable dRec dRec_reachable

/-- C6 (counterexample): three consecutive `EncoderDown(0)` events do
not return the sink to its starting value — from the default sink,
three presses end on `Some "MyMixer"`, so the handler is not the
three-element cycle Default → Mixer → Both → Default the claim states,
and no value denoting Both is ever produced. -/
theorem encoderDown0_not_three_cycle :
    encoderDown0 (encoderDown0 (encoderDown0 none)) = some "MyMixer" ∧
    some "MyMixer" ≠ (none : Option String) := by
  constructor
  · rfl
  · intro hc
    cases hc

/-- C6 (amended): `EncoderDown(0)` toggles `playback_sink_name`
through the two-element cycle Default → Mixer → Default: from the
default sink one press reaches the mixer sink and a press from any
mixer value returns to the default, so on every reachable value (the
panel starts at Default) two consecutive presses are the identity,
stated as period two after one press. -/
theorem encoderDown0_two_cycle (s : Option String) :
    encoderDown0 none = some "MyMixer" ∧
    (∀ x, encoderDown0 (some x) = none) ∧
    encoderDown0 (encoderDown0 (encoderDown0 s)) = encoderDown0 s := by
  refine ⟨rfl, fun x => rfl, ?_⟩
  cases s <;> rfl

/-- C8: the `pw-play` invocation built for the Mixer sink carries no
volume argument — `play_audio_file` adds the second `--volume` pair to
the Default command instead (so the Default invocation carries it
twice) — while the `Both` branch still aggregates to success exactly
when both statuses were obtained and both succeeded. -/
theorem mixer_invocation_lacks_volume :
    invocationsFor .Mixer "0.8" pathA = [["--target", "MyMixer", pathA]] ∧
    "--volume" ∉ playerMixerArgs pathA ∧
    playerDefaultArgs "0.8" pathA = ["--volume", "0.8", pathA, "--volume", "0.8"] ∧
    ¬ (∀ args ∈ invocationsFor .Both "0.8" pathA, "--volume" ∈ args) ∧
    (∀ r1 r2 : CmdResult, bothOutcome r1 r2 = true ↔
      r1 = .exited true ∧ r2 = .exited true) := by
  refine ⟨by decide, by decide, by decide, by decide, ?_⟩
  intro r1 r2
  cases r1 with
  | exited b1 =>
      cases r2 with
      | exited b2 => cases b1 <;> cases b2 <;> simp [bothOutcome]
      | launchFailure => cases b1 <;> simp [bothOutcome]
  | launchFailure =>
      cases r2 <;> simp [bothOutcome]

/-- C7 (counterexample): a pending-delete registration made in Edit
mode survives the `EncoderTwist(0, _)` toggle that leaves Edit — after
Edit-mode `ButtonDown(0)` at time 5 on system `sysF` and a twist back
to Playback, the pending-delete entry for key 0 is still `some 5`, so
the pending-selection state is not cleared on leaving Edit. -/
theorem mode_exit_keeps_pending :
    ∃ s2, buttonDown sysF 0 5 = some s2 ∧
      s2.panel.mode = Mode.Edit ∧
      s2.panel.pending_delete 0 = some 5 ∧
      (encoderTwist0 s2).panel.mode = Mode.Playback ∧
      (encoderTwist0 s2).panel.pending_delete 0 = some 5 ∧
      some 5 ≠ (none : Option Nat) := by
  refine ⟨_, rfl, rfl, rfl, rfl, rfl, ?_⟩
  intro hc
  cases hc

/-- C7 (amended): the mode toggle `EncoderTwist(0, _)` only switches
the mode; it leaves the pending-delete map, the active recording key,
the button images, the engine and the filesystem untouched, so
pending-delete state persists across mode transitions and is consumed
only by an Edit-mode `ButtonUp` on its key. -/
theorem encoderTwist0_keeps_panel {S : Type} (sys : Sys S) :
    (encoderTwist0 sys).panel.pending_delete = sys.panel.pending_delete ∧
    (encoderTwist0 sys).panel.active_recording_key = sys.panel.active_recording_key ∧
    (encoderTwist0 sys).panel.images = sys.panel.images ∧
    (encoderTwist0 sys).engine = sys.engine ∧
    (encoderTwist0 sys).files = sys.files ∧
    (encoderTwist0 sys).panel.mode
      = (match sys.panel.mode with
          | Mode.Playback => Mode.Edit
          | Mode.Edit => Mode.Playback) :=
  ⟨rfl, rfl, rfl, rfl, rfl, rfl⟩

/-- The status text of a listening engine contains "Listening". -/
theorem strContains_listening :
    strContains (State.statusMsg State.Listening) "Listening" = true := by
  decide

/-- C5 (counterexample): in Playback mode, `ButtonDown(0)` on key 0,
whose bound file `pathA` is absent, changes nothing — no `Start` is
issued (the engine, ready to record, stays `Listening`) and
`active_recording_key` stays `none`, although the claim predicts the
engine would be `Recording pathA` with `active_recording_key = some 0`. -/
theorem playback_buttondown_starts_nothing :
    buttonDown sysP 0 0 = some sysP ∧
    sysP.engine.state = State.Listening ∧
    sysP.panel.active_recording_key = none ∧
    State.Listening ≠ State.Recording pathA ∧
    (none : Option Nat) ≠ some 0 := by
  refine ⟨rfl, rfl, rfl, ?_, ?_⟩
  · intro hc
    cases hc
  · intro hc
    cases hc

/-- C5 (amended): recording start and stop are driven from Edit mode.
In Edit mode, `ButtonDown(key)` on a key whose bound file is absent
issues `Status` and then `Start(path)`, and on `Ok` sets
`active_recording_key = Some(key)`; in Edit mode `ButtonUp(key)` on
the key equal to `active_recording_key` issues `Stop` and on `Ok`
clears `active_recording_key`. -/
theorem edit_mode_drives_recording {S : Type}
    (sk : Option String) (bf : Nat → Option FilePath) (ar : Option Nat)
    (pd : Nat → Option Nat) (im : Nat → ButtonImage)
    (ebuf : List S) (fl : FilePath → Bool)
    (key now : Nat) (path : FilePath) (f : AudioFormat)
    (hbf : bf key = some path) (hfl : fl path = false) :
    (∃ sys2,
      buttonDown ⟨⟨.Edit, sk, bf, ar, pd, im⟩, ⟨some f, .Listening, ebuf⟩, fl⟩ key now
        = some sys2 ∧
      sys2.engine.state = State.Recording path ∧
      sys2.panel.active_recording_key = some key) ∧
    (∃ sys2,
      buttonUp ⟨⟨.Edit, sk, bf, some key, pd, im⟩, ⟨some f, .Recording path, ebuf⟩, fl⟩ key now
        = some (sys2, none) ∧
      sys2.panel.active_recording_key = none ∧
      sys2.engine.state = State.Listening) := by
  constructor
  · refine ⟨⟨⟨.Edit, sk, bf, some key, pd, updateFn im key .RecOn⟩,
        ⟨some f, .Recording path, []⟩, fl⟩, ?_, rfl, rfl⟩
    simp only [buttonDown, hbf, hfl, handle, State.statusMsg]
    simp only [show strContains "Listening" "Listening" = true from by decide]
    simp
  · refine ⟨⟨⟨.Edit, sk, bf, none, pd, updateFn im key .Play⟩,
        ⟨some f, .Listening, []⟩, applySave fl (some ⟨ebuf, f, path⟩)⟩, ?_, rfl, rfl⟩
    simp only [buttonUp, handle]
    simp

/-- Witness for `edit_mode_drives_recording` at a concrete Edit-mode
panel with key 0 bound to the absent `pathA` and a ready engine. -/
theorem edit_mode_drives_recording_witness :
    (∃ sys2,
      buttonDown ⟨⟨.Edit, none, (fun k => if k = 0 then some pathA else none), none,
          (fun _ => none), (fun _ => .RecOff)⟩, ⟨some fmt0, .Listening, ([] : List Int)⟩,
          (fun _ => false)⟩ 0 0 = some sys2 ∧
      sys2.engine.state = State.Recording pathA ∧
      sys2.panel.active_recording_key = some 0) ∧
    (∃ sys2,
      buttonUp ⟨⟨.Edit, none, (fun k => if k = 0 then some pathA else none), some 0,
          (fun _ => none), (fun _ => .RecOff)⟩, ⟨some fmt0, .Recording pathA, ([] : List Int)⟩,
          (fun _ => false)⟩ 0 0 = some (sys2, none) ∧
      sys2.panel.active_recording_key = none ∧
      sys2.engine.state = State.Listening) :=
  edit_mode_drives_recording none (fun k => if k = 0 then some pathA else none) none
    (fun _ => none) (fun _ => .RecOff) ([] : List Int) (fun _ => false) 0 0 pathA fmt0
    rfl rfl

/-- C10: in Edit mode, `ButtonUp(key)` (when the key is not the active
recording key) deletes the bound file only when a pending-delete
timestamp was registered by an Edit-mode `ButtonDown` and the hold
lasted at least `DELETE_HOLD_DURATION`; a shorter hold, or no
registered timestamp, leaves the filesystem unchanged. -/
theorem delete_requires_long_hold {S : Type} (sys : Sys S) (key now : Nat)
    (path : FilePath)
    (hmode : sys.panel.mode = Mode.Edit)
    (har : sys.panel.active_recording_key ≠ some key) :
    (∀ t0, sys.panel.pending_delete key = some t0 →
      now - t0 < DELETE_HOLD_DURATION →
      ∃ sys2, buttonUp sys key now = some (sys2, none) ∧ sys2.files = sys.files) ∧
    (∀ t0, sys.panel.pending_delete key = some t0 →
      DELETE_HOLD_DURATION ≤ now - t0 →
      sys.panel.button_files key = some path → sys.files path = true →
      ∃ sys2, buttonUp sys key now = some (sys2, none) ∧ sys2.files path = false) ∧
    (sys.panel.pending_delete key = none →
      buttonUp sys key now = some (sys, none)) := by
  refine ⟨?_, ?_, ?_⟩
  · intro t0 hpd hshort
    simp only [buttonUp, hmode, har, hpd, if_neg har,
      Nat.not_le.mpr hshort, if_neg (Nat.not_le.mpr hshort)]
    simp only [Nat.not_le.mpr hshort, if_false]
    cases hbf : sys.panel.button_files key with
    | none => exact ⟨_, rfl, rfl⟩
    | some q =>
        cases hfq : sys.files q with
        | true => simp [hbf, hfq]
        | false => simp [hbf, hfq]
  · intro t0 hpd hlong hbf hfp
    simp only [buttonUp, hmode, hpd, hbf, if_neg har, if_pos hlong, hfp]
    refine ⟨⟨⟨Mode.Edit, sys.panel.playback_sink_name, sys.panel.button_files,
        sys.panel.active_recording_key, updateFn sys.panel.pending_delete key none,
        updateFn sys.panel.images key ButtonImage.RecOff⟩, sys.engine,
        fun q => if q = path then false else sys.files q⟩, ?_, ?_⟩
    · simp
    · simp
  · intro hpd
    simp [buttonUp, hmode, hpd, if_neg har]

/-- Witness for `delete_requires_long_hold` at the concrete Edit-mode
system `sysD` (pending-delete timestamp 0 on key 0, bound file on
disk): releasing at time 100 (hold 100 ms) leaves the disk unchanged,
releasing at time 2500 (hold 2500 ms) deletes `pathA`. -/
theorem delete_requires_long_hold_witness :
    (∃ sys2, buttonUp sysD 0 100 = some (sys2, none) ∧ sys2.files = sysD.files) ∧
    (∃ sys2, buttonUp sysD 0 2500 = some (sys2, none) ∧ sys2.files pathA = false) :=
  ⟨(delete_requires_long_hold sysD 0 100 pathA rfl (by decide)).1 0 rfl (by decide),
   (delete_requires_long_hold sysD 0 2500 pathA rfl (by decide)).2.1 0 rfl
     (by decide) rfl rfl⟩

end Soundboard
